import Mathlib

/-!
Verification development for the ClarityCut review player.

Shallow embedding of the playback-synchronization core of the repository:
the cut-interval data model (src/types.ts), the review-phase state updates
(src/components/ReviewPhase.tsx: the checkTime playback tick, previewCut,
skip, handleScrubMove, toggleCutStatus, the stats memo) and the metrics
aggregator of the application root (calculateMetrics).

Times are modelled as rationals (the source uses JS numbers; every claim
here is about exact arithmetic on the written expressions). The video
element is modelled as a mirror field videoTime; assigning
videoRef.current.currentTime is modelled as writing that field.
-/

namespace ClarityCut

/-- Accept/reject status of a detected cut (src/types.ts, CutEvent.status). -/
inductive CutStatus where
  | accepted
  | rejected
deriving DecidableEq, Repr

/-- Category of a detected cut (src/types.ts, CutType). -/
inductive CutType where
  | cliche
  | filler
  | silence
  | repetition
  | stutter
deriving DecidableEq, Repr

/-- A detected cut interval (src/types.ts, interface CutEvent). -/
structure CutEvent where
  id : String
  type : CutType
  word : Option String
  start : ℚ
  «end» : ℚ
  confidence : ℚ
  status : CutStatus
deriving DecidableEq, Repr

/-- The half-open containment test as written in ReviewPhase.tsx
(`time >= c.start && time < c.end`, used at lines 95-96 of checkTime and
line 181 of handleScrubMove). -/
def cutContainsTime (c : CutEvent) (t : ℚ) : Bool :=
  decide (c.start ≤ t) && decide (t < c.«end»)

/-- The predicate of the skip search in checkTime (ReviewPhase.tsx lines
93-97): accepted status plus the half-open containment test. -/
def skipPred (t : ℚ) (c : CutEvent) : Bool :=
  decide (c.status = CutStatus.accepted) && cutContainsTime c t

/-- The skip search of checkTime (ReviewPhase.tsx lines 93-97): the JS
Array.find over the cut list with skipPred, returning the first match in
list order. -/
def findCurrentCut (cuts : List CutEvent) (t : ℚ) : Option CutEvent :=
  cuts.find? (skipPred t)

/-- The value assigned to the play position by the forced jump of checkTime
(line 103: `videoRef.current.currentTime = currentCut.end`), when a
containing accepted cut is found. -/
def jumpTarget (cuts : List CutEvent) (t : ℚ) : Option ℚ :=
  (findCurrentCut cuts t).map (fun c => c.«end»)

/-- State of the ReviewPhase component: the mutable fields read and written
by the playback tick and the command handlers. videoTime mirrors both the
video element position and the currentTime React state (the handlers keep
them equal). -/
structure ReviewState where
  videoTime : ℚ
  isPlaying : Bool
  isScrubbing : Bool
  duration : ℚ
  activeCutId : Option String
  previewEndTime : Option ℚ
deriving DecidableEq, Repr

/-- One iteration of the checkTime playback loop (ReviewPhase.tsx lines
63-116): while scrubbing, nothing happens; while playing with a preview
bound set, reaching the bound pauses and clears it, otherwise only the
highlight is refreshed (1.5 s slack, written 3/2 here); while playing with
no bound, a containing accepted cut forces the jump to its end, otherwise
the upcoming cut within 2 s is highlighted. -/
def checkTime (st : ReviewState) (cuts : List CutEvent) : ReviewState :=
  if st.isScrubbing then st
  else if st.isPlaying then
    let time := st.videoTime
    match st.previewEndTime with
    | some bound =>
      if bound ≤ time then
        { st with isPlaying := false, previewEndTime := none }
      else
        match cuts.find? (fun c =>
            decide (c.start - 3/2 ≤ time) && decide (time ≤ c.«end» + 3/2)) with
        | some c => { st with activeCutId := some c.id }
        | none => st
    | none =>
      match findCurrentCut cuts time with
      | some c => { st with activeCutId := some c.id, videoTime := c.«end» }
      | none =>
        let upcomingCut := cuts.find? (fun c => decide (|c.start - time| < 2))
        { st with activeCutId := upcomingCut.map (fun c => c.id) }
  else st

/-- previewCut (ReviewPhase.tsx lines 123-138): highlight the cut, set the
preview bound to min(duration, cut.end + 1), seek to max(0, cut.start - 1)
and start playback. There is no guard on duration. -/
def previewCut (st : ReviewState) (cut : CutEvent) : ReviewState :=
  let start := max 0 (cut.start - 1)
  let stop := min st.duration (cut.«end» + 1)
  { st with
      activeCutId := some cut.id
      previewEndTime := some stop
      videoTime := start
      isPlaying := true }

/-- skip (ReviewPhase.tsx lines 141-149): relative seek clamped to
[0, duration], clearing any preview bound. -/
def skip (st : ReviewState) (seconds : ℚ) : ReviewState :=
  let newTime := max 0 (min st.duration (st.videoTime + seconds))
  { st with videoTime := newTime, previewEndTime := none }

/-- handleScrubMove (ReviewPhase.tsx lines 166-184): guarded by
`duration > 0`; the pointer offset is clamped to [0, rect.width], converted
to a fraction of the width and scaled by duration; the cut containing the
new time (half-open) is highlighted. When duration is 0 the handler is a
no-op. -/
def handleScrubMove (st : ReviewState) (cuts : List CutEvent)
    (clientX rectLeft rectWidth : ℚ) : ReviewState :=
  if 0 < st.duration then
    let x := max 0 (min (clientX - rectLeft) rectWidth)
    let percentage := x / rectWidth
    let newTime := percentage * st.duration
    let cutAtTime := cuts.find? (fun c => cutContainsTime c newTime)
    { st with videoTime := newTime, activeCutId := cutAtTime.map (fun c => c.id) }
  else st

/-- toggleCutStatus (ReviewPhase.tsx lines 55-57):
`prev.map(c => c.id === id ? { ...c, status } : c)`. -/
def toggleCutStatus (cuts : List CutEvent) (id : String) (status : CutStatus) :
    List CutEvent :=
  cuts.map (fun c => if c.id = id then { c with status := status } else c)

/-- The stats memo of the review view (ReviewPhase.tsx lines 252-256). -/
structure Stats where
  count : Nat
  timeSaved : ℚ
deriving DecidableEq, Repr

/-- stats (ReviewPhase.tsx lines 252-256): accepted cuts are filtered, then
counted and their lengths summed by reduce with initial accumulator 0. -/
def stats (cuts : List CutEvent) : Stats :=
  let accepted := cuts.filter (fun c => decide (c.status = CutStatus.accepted))
  { count := accepted.length
    timeSaved := accepted.foldl (fun acc c => acc + (c.«end» - c.start)) 0 }

/-- Result of the metrics aggregator (src/types.ts, ProcessingMetrics). -/
structure ProcessingMetrics where
  originalDuration : ℚ
  finalDuration : ℚ
  cutsCount : Nat
  timeSaved : ℚ
deriving DecidableEq, Repr

/-- calculateMetrics of the application root (src/unnamed/part_000 lines
127-136). -/
def calculateMetrics (cuts : List CutEvent) (originalDuration : ℚ) :
    ProcessingMetrics :=
  let acceptedCuts := cuts.filter (fun c => decide (c.status = CutStatus.accepted))
  let timeSaved := acceptedCuts.foldl (fun acc curr => acc + (curr.«end» - curr.start)) 0
  { originalDuration := originalDuration
    finalDuration := originalDuration - timeSaved
    cutsCount := acceptedCuts.length
    timeSaved := timeSaved }

/-- Time-to-fraction conversion of the timeline (the expression
`currentTime / duration` of the playhead rendering and of handleScrubMove,
behind the `duration > 0` guards the component places on every use while
duration is unknown). -/
def toFraction (time duration : ℚ) : ℚ :=
  if 0 < duration then time / duration else 0

/-- Fraction-to-time conversion (`percentage * duration`,
ReviewPhase.tsx line 171). -/
def toTime (fraction duration : ℚ) : ℚ :=
  fraction * duration

/-- Number of accepted cuts in a list. -/
def acceptedCount (cuts : List CutEvent) : Nat :=
  cuts.countP (fun c => decide (c.status = CutStatus.accepted))

/-- One application of the skip policy as a position transformer: if a
containing accepted cut is found, the position becomes its end, otherwise
it is unchanged. -/
def skipStep (cuts : List CutEvent) (t : ℚ) : ℚ :=
  match findCurrentCut cuts t with
  | some c => c.«end»
  | none => t

/-- Number of accepted cuts whose end still lies strictly ahead of t; the
termination measure of the skip iteration. -/
def liveCount (cuts : List CutEvent) (t : ℚ) : Nat :=
  cuts.countP (fun c => decide (c.status = CutStatus.accepted) && decide (t < c.«end»))

/-- The two overlapping accepted cuts of the tie-break example:
[5, 8) listed first. -/
def cutA : CutEvent :=
  { id := "a", type := CutType.filler, word := none, start := 5, «end» := 8,
    confidence := 1, status := CutStatus.accepted }

/-- Second cut of the tie-break example: [6, 12), the later end. -/
def cutB : CutEvent :=
  { id := "b", type := CutType.filler, word := none, start := 6, «end» := 12,
    confidence := 1, status := CutStatus.accepted }

/-- The three cuts of the metrics example. -/
def metricsExampleCuts : List CutEvent :=
  [ { id := "1", type := CutType.filler, word := none, start := 2, «end» := 4,
      confidence := 1, status := CutStatus.accepted },
    { id := "2", type := CutType.filler, word := none, start := 10, «end» := 10.5,
      confidence := 1, status := CutStatus.accepted },
    { id := "3", type := CutType.filler, word := none, start := 20, «end» := 21,
      confidence := 1, status := CutStatus.rejected } ]

/-- Folding addition of f over a list starting from a is a plus the sum of
the mapped list (relates the JS reduce idiom to List.sum). -/
theorem foldl_add_eq_sum {α : Type} (f : α → ℚ) (l : List α) (a : ℚ) :
    l.foldl (fun acc c => acc + f c) a = a + (l.map f).sum := by
  induction l generalizing a with
  | nil => simp
  | cons x l ih => simp [ih, add_assoc]

/-- Unfolding of the skip predicate into its three conjuncts. -/
theorem skipPred_iff (t : ℚ) (c : CutEvent) :
    skipPred t c = true ↔
      (c.status = CutStatus.accepted ∧ c.start ≤ t ∧ t < c.«end») := by
  simp [skipPred, cutContainsTime, and_assoc]

/-- C2: the containment test of the skip evaluation is half-open:
cutContainsTime c t holds iff c.start ≤ t < c.end, the full skip predicate
additionally requires accepted status, and t = c.end is never contained. -/
theorem containment_half_open (c : CutEvent) (t : ℚ) :
    (cutContainsTime c t = true ↔ (c.start ≤ t ∧ t < c.«end»)) ∧
    (skipPred t c = true ↔ (c.status = CutStatus.accepted ∧ c.start ≤ t ∧ t < c.«end»)) ∧
    cutContainsTime c c.«end» = false := by
  refine ⟨by simp [cutContainsTime], skipPred_iff t c, by simp [cutContainsTime]⟩

/-- C1 counterexample: cuts [5,8) and [6,12) are both accepted and both
contain t = 7, yet the skip decision jumps to 8 (the end of the first cut
in list order), not to the latest end 12. -/
theorem skip_tiebreak_counterexample :
    skipPred 7 cutA = true ∧ skipPred 7 cutB = true ∧ cutB.«end» = 12 ∧
    jumpTarget [cutA, cutB] 7 = some 8 ∧ jumpTarget [cutA, cutB] 7 ≠ some 12 := by
  decide

/-- C1 amended: the skip decision selects the FIRST containing accepted
interval in cut-list traversal order (JS Array.find), not the one with the
latest end; in particular for accepted [5,8) and [6,12) listed in that
order, evaluating at t = 7 yields jump target 8. -/
theorem skip_selects_first_containing (cuts : List CutEvent) (t : ℚ) :
    findCurrentCut cuts t = (cuts.filter (skipPred t)).head? ∧
    jumpTarget [cutA, cutB] 7 = some 8 :=
  ⟨(List.filter_head? _ _).symm, by decide⟩

/-- C6: timeSaved is the sum of end − start over accepted cuts, cutsCount
is the number of accepted cuts, finalDuration is originalDuration minus
timeSaved; on the example list with originalDuration 60 the result is
timeSaved 2.5, cutsCount 2, finalDuration 57.5. -/
theorem calculateMetrics_correct (cuts : List CutEvent) (d : ℚ) :
    (calculateMetrics cuts d).timeSaved =
      ((cuts.filter (fun c => decide (c.status = CutStatus.accepted))).map
        (fun c => c.«end» - c.start)).sum ∧
    (calculateMetrics cuts d).cutsCount =
      (cuts.filter (fun c => decide (c.status = CutStatus.accepted))).length ∧
    (calculateMetrics cuts d).finalDuration = d - (calculateMetrics cuts d).timeSaved ∧
    calculateMetrics metricsExampleCuts 60 =
      { originalDuration := 60, finalDuration := 57.5, cutsCount := 2, timeSaved := 2.5 } := by
  refine ⟨?_, rfl, rfl, ?_⟩
  · simpa using foldl_add_eq_sum (fun c => c.«end» - c.start)
      (cuts.filter (fun c => decide (c.status = CutStatus.accepted))) 0
  · simp [calculateMetrics, metricsExampleCuts, List.filter, List.foldl]
    norm_num

/-- C9: the stats memo of the review view and calculateMetrics of the
application root agree on the accepted-cut count and the time saved. -/
theorem stats_agrees_with_calculateMetrics (cuts : List CutEvent) (d : ℚ) :
    (stats cuts).count = (calculateMetrics cuts d).cutsCount ∧
    (stats cuts).timeSaved = (calculateMetrics cuts d).timeSaved :=
  ⟨rfl, rfl⟩

/-- C10: toggling the status of a cut preserves length and order; at every index
the cut whose id matches gets the target status with all other fields
unchanged, and a cut whose id does not match is unchanged entirely. -/
theorem toggleCutStatus_frame (cuts : List CutEvent) (id : String)
    (status : CutStatus) (i : Nat) (c : CutEvent) (h : cuts[i]? = some c) :
    (toggleCutStatus cuts id status).length = cuts.length ∧
    (toggleCutStatus cuts id status)[i]? =
      some { c with status := if c.id = id then status else c.status } := by
  constructor
  · simp [toggleCutStatus]
  · by_cases hid : c.id = id <;> simp [toggleCutStatus, h, hid]

/-- An accepted cut [5, 15) whose end exceeds the duration 10 of the state
below. -/
def cutOverrun : CutEvent :=
  { id := "x", type := CutType.silence, word := none, start := 5, «end» := 15,
    confidence := 1, status := CutStatus.accepted }

/-- A Playing state at position 7 with duration 10, no scrub, no preview. -/
def playingAt7 : ReviewState :=
  { videoTime := 7, isPlaying := true, isScrubbing := false, duration := 10,
    activeCutId := none, previewEndTime := none }

/-- C3 counterexample: during Playing at position 7 with duration 10 and the
accepted cut [5, 15), the tick assigns position 15 — the raw cut end,
outside [0, duration]; the forced jump is not clamped. -/
theorem jump_unclamped_counterexample :
    playingAt7.duration = 10 ∧
    (checkTime playingAt7 [cutOverrun]).videoTime = 15 ∧
    ¬ (checkTime playingAt7 [cutOverrun]).videoTime ≤ playingAt7.duration := by
  refine ⟨rfl, ?_, ?_⟩ <;> simp [checkTime, playingAt7, findCurrentCut,
    skipPred, cutContainsTime, cutOverrun] <;> norm_num

/-- C3 amended: the relative skip commands are always clamped to
[0, duration]; the forced jump of the Playing tick is NOT clamped — it
assigns the raw end of the containing accepted cut — so the tick keeps the
position in [0, duration] only under the extra assumption that every
accepted cut ends no later than duration. -/
theorem position_assignments_bounded (st : ReviewState) (cuts : List CutEvent)
    (s : ℚ) (hd : 0 ≤ st.duration) (ht0 : 0 ≤ st.videoTime)
    (htd : st.videoTime ≤ st.duration)
    (hend : ∀ c ∈ cuts, c.status = CutStatus.accepted → c.«end» ≤ st.duration) :
    (0 ≤ (skip st s).videoTime ∧ (skip st s).videoTime ≤ st.duration) ∧
    (0 ≤ (checkTime st cuts).videoTime ∧
      (checkTime st cuts).videoTime ≤ st.duration) := by
  refine ⟨⟨le_max_left _ _, max_le hd (min_le_left _ _)⟩, ?_⟩
  unfold checkTime
  split
  · exact ⟨ht0, htd⟩
  split
  · dsimp only
    split
    · split
      · exact ⟨ht0, htd⟩
      split
      · exact ⟨ht0, htd⟩
      · exact ⟨ht0, htd⟩
    · split
      · rename_i c hc
        have hmem := List.mem_of_find?_eq_some hc
        have hpred := (skipPred_iff st.videoTime c).mp (List.find?_some hc)
        exact ⟨le_trans ht0 (le_of_lt hpred.2.2), hend c hmem hpred.1⟩
      · exact ⟨ht0, htd⟩
  · exact ⟨ht0, htd⟩

/-- Witness for the amended C3 bounds at a concrete in-range state. -/
theorem position_assignments_bounded_witness :
    (0 ≤ playingAt7.duration ∧ 0 ≤ playingAt7.videoTime ∧
      playingAt7.videoTime ≤ playingAt7.duration) ∧
    ((0 ≤ (skip playingAt7 5).videoTime ∧
        (skip playingAt7 5).videoTime ≤ playingAt7.duration) ∧
      (0 ≤ (checkTime playingAt7 []).videoTime ∧
        (checkTime playingAt7 []).videoTime ≤ playingAt7.duration)) :=
  ⟨by refine ⟨?_, ?_, ?_⟩ <;> norm_num [playingAt7],
    position_assignments_bounded playingAt7 [] 5
      (by norm_num [playingAt7]) (by norm_num [playingAt7])
      (by norm_num [playingAt7]) (by intro c hc; cases hc)⟩

/-- An Idle state whose duration is still unknown (0). -/
def idleNoDuration : ReviewState :=
  { videoTime := 0, isPlaying := false, isScrubbing := false, duration := 0,
    activeCutId := none, previewEndTime := none }

/-- A cut [10, 12) whose start exceeds the duration of idleNoDuration. -/
def cutBeyond : CutEvent :=
  { id := "p", type := CutType.filler, word := none, start := 10, «end» := 12,
    confidence := 1, status := CutStatus.accepted }

/-- C4 counterexample: with duration still 0 (unknown) — and the start 10 of the cut exceeding that duration — the preview command is NOT rejected: it
changes the state, seeks to 9 and starts playback. -/
theorem preview_not_rejected_counterexample :
    idleNoDuration.duration = 0 ∧ idleNoDuration.duration < cutBeyond.start ∧
    (previewCut idleNoDuration cutBeyond).videoTime = 9 ∧
    (previewCut idleNoDuration cutBeyond).isPlaying = true ∧
    (previewCut idleNoDuration cutBeyond).previewEndTime = some 0 ∧
    previewCut idleNoDuration cutBeyond ≠ idleNoDuration := by
  refine ⟨rfl, by norm_num [idleNoDuration, cutBeyond], ?_, rfl, ?_, ?_⟩
  · show max 0 (cutBeyond.start - 1) = 9
    norm_num [cutBeyond]
  · show some (min idleNoDuration.duration (cutBeyond.«end» + 1)) = some 0
    norm_num [idleNoDuration, cutBeyond]
  · intro h
    have : (previewCut idleNoDuration cutBeyond).isPlaying = idleNoDuration.isPlaying := by
      rw [h]
    simp [previewCut, idleNoDuration] at this

/-- C4 amended: a scrub command issued while duration is unknown (0) is
rejected as a no-op, but a preview command is never rejected: for any
duration and any interval it seeks to max(0, c.start − 1), sets the bound
min(duration, c.end + 1) and starts playback. -/
theorem scrub_rejected_preview_proceeds (st : ReviewState)
    (cuts : List CutEvent) (cut : CutEvent) (cx l w : ℚ)
    (hd : st.duration = 0) :
    handleScrubMove st cuts cx l w = st ∧
    (previewCut st cut).videoTime = max 0 (cut.start - 1) ∧
    (previewCut st cut).previewEndTime = some (min st.duration (cut.«end» + 1)) ∧
    (previewCut st cut).isPlaying = true := by
  refine ⟨?_, rfl, rfl, rfl⟩
  simp [handleScrubMove, hd]

/-- Witness for the amended C4 at the concrete duration-0 state. -/
theorem scrub_rejected_preview_proceeds_witness :
    idleNoDuration.duration = 0 ∧
    (handleScrubMove idleNoDuration [] 5 0 100 = idleNoDuration ∧
      (previewCut idleNoDuration cutBeyond).videoTime =
        max 0 (cutBeyond.start - 1) ∧
      (previewCut idleNoDuration cutBeyond).previewEndTime =
        some (min idleNoDuration.duration (cutBeyond.«end» + 1)) ∧
      (previewCut idleNoDuration cutBeyond).isPlaying = true) :=
  ⟨rfl, scrub_rejected_preview_proceeds idleNoDuration [] cutBeyond 5 0 100 rfl⟩

/-- C5: a preview command for cut c seeks to max(0, c.start − 1) and bounds
playback at min(duration, c.end + 1); once a playing, non-scrubbing state
reaches the bound the tick pauses playback and clears the bound; and while
any preview bound is set the tick never moves the position — no skip-jump
is forced, even over accepted cuts containing the position. -/
theorem preview_bounding (st stAtBound stBounded : ReviewState)
    (cuts : List CutEvent) (c : CutEvent) (b : ℚ)
    (h1 : stAtBound.isScrubbing = false) (h2 : stAtBound.isPlaying = true)
    (h3 : stAtBound.previewEndTime = some b) (h4 : b ≤ stAtBound.videoTime)
    (h5 : stBounded.previewEndTime.isSome = true) :
    (previewCut st c).videoTime = max 0 (c.start - 1) ∧
    (previewCut st c).previewEndTime = some (min st.duration (c.«end» + 1)) ∧
    (previewCut st c).isPlaying = true ∧
    (checkTime stAtBound cuts).isPlaying = false ∧
    (checkTime stAtBound cuts).previewEndTime = none ∧
    (checkTime stBounded cuts).videoTime = stBounded.videoTime := by
  have hAt : checkTime stAtBound cuts =
      { stAtBound with isPlaying := false, previewEndTime := none } := by
    unfold checkTime
    rw [h1, h2, h3]
    simp [h4]
  refine ⟨rfl, rfl, rfl, by rw [hAt], by rw [hAt], ?_⟩
  rcases hb : stBounded.previewEndTime with _ | b2
  · rw [hb] at h5; simp at h5
  · unfold checkTime
    split
    · rfl
    split
    · rw [hb]
      dsimp only
      split
      · rfl
      · split <;> rfl
    · rfl

/-- The cut [10, 12) of the preview-bounding example, accepted. -/
def previewedCut : CutEvent :=
  { id := "w", type := CutType.filler, word := none, start := 10, «end» := 12,
    confidence := 1, status := CutStatus.accepted }

/-- Idle state with duration 100, before the preview command. -/
def stBeforePreview : ReviewState :=
  { videoTime := 0, isPlaying := false, isScrubbing := false, duration := 100,
    activeCutId := none, previewEndTime := none }

/-- Previewing state that has reached the bound 13. -/
def stReached13 : ReviewState :=
  { videoTime := 13, isPlaying := true, isScrubbing := false, duration := 100,
    activeCutId := some "w", previewEndTime := some 13 }

/-- Previewing state at position 11, inside the accepted cut [10, 12). -/
def stInside11 : ReviewState :=
  { videoTime := 11, isPlaying := true, isScrubbing := false, duration := 100,
    activeCutId := some "w", previewEndTime := some 13 }

/-- Witness for C5 at the spec example: cut [10, 12), duration 100 —
preview seeks to 9, bounds at 13, the tick pauses at 13, and at position 11
inside the accepted cut no jump is forced. -/
theorem preview_bounding_witness :
    (stReached13.isScrubbing = false ∧ stReached13.isPlaying = true ∧
      stReached13.previewEndTime = some 13 ∧ (13 : ℚ) ≤ stReached13.videoTime ∧
      stInside11.previewEndTime.isSome = true) ∧
    ((previewCut stBeforePreview previewedCut).videoTime =
        max 0 (previewedCut.start - 1) ∧
      (previewCut stBeforePreview previewedCut).previewEndTime =
        some (min stBeforePreview.duration (previewedCut.«end» + 1)) ∧
      (previewCut stBeforePreview previewedCut).isPlaying = true ∧
      (checkTime stReached13 [previewedCut]).isPlaying = false ∧
      (checkTime stReached13 [previewedCut]).previewEndTime = none ∧
      (checkTime stInside11 [previewedCut]).videoTime = stInside11.videoTime) :=
  ⟨⟨rfl, rfl, rfl, le_refl _, rfl⟩,
    preview_bounding stBeforePreview stReached13 stInside11 [previewedCut]
      previewedCut 13 rfl rfl rfl (le_refl _) rfl⟩

/-- C8: with duration > 0 the fraction-time round trip is exact; a scrub at
the own pixel offset of the playhead (rectLeft plus fraction of the width)
lands exactly back on the original time; and with duration 0 the fraction
is 0, the division being guarded away. -/
theorem mapper_round_trip (st : ReviewState) (cuts : List CutEvent)
    (time rectLeft rectWidth : ℚ)
    (hd : 0 < st.duration) (hw : 0 < rectWidth)
    (h0 : 0 ≤ time) (h1 : time ≤ st.duration) :
    toTime (toFraction time st.duration) st.duration = time ∧
    toFraction time 0 = 0 ∧
    (handleScrubMove st cuts (rectLeft + toFraction time st.duration * rectWidth)
        rectLeft rectWidth).videoTime = time := by
  have hdne : st.duration ≠ 0 := ne_of_gt hd
  have hfrac : toFraction time st.duration = time / st.duration := if_pos hd
  have hround : toTime (toFraction time st.duration) st.duration = time := by
    rw [hfrac, toTime, div_mul_cancel₀ _ hdne]
  refine ⟨hround, if_neg (lt_irrefl 0), ?_⟩
  have hf0 : 0 ≤ toFraction time st.duration := by
    rw [hfrac]; exact div_nonneg h0 (le_of_lt hd)
  have hf1 : toFraction time st.duration ≤ 1 := by
    rw [hfrac, div_le_one hd]; exact h1
  unfold handleScrubMove
  rw [if_pos hd]
  dsimp only
  have hx : rectLeft + toFraction time st.duration * rectWidth - rectLeft =
      toFraction time st.duration * rectWidth := by ring
  rw [hx]
  have hle : toFraction time st.duration * rectWidth ≤ rectWidth := by
    calc toFraction time st.duration * rectWidth ≤ 1 * rectWidth :=
          mul_le_mul_of_nonneg_right hf1 (le_of_lt hw)
      _ = rectWidth := one_mul _
  have hnn : 0 ≤ toFraction time st.duration * rectWidth :=
    mul_nonneg hf0 (le_of_lt hw)
  rw [min_eq_left hle, max_eq_right hnn,
    mul_div_assoc, div_self (ne_of_gt hw), mul_one, ← toTime]
  exact hround

/-- Witness for C8 at time 30, duration 100, width 400. -/
theorem mapper_round_trip_witness :
    (0 < stBeforePreview.duration ∧ (0 : ℚ) < 400 ∧ (0 : ℚ) ≤ 30 ∧
      (30 : ℚ) ≤ stBeforePreview.duration) ∧
    (toTime (toFraction 30 stBeforePreview.duration) stBeforePreview.duration = 30 ∧
      toFraction 30 0 = 0 ∧
      (handleScrubMove stBeforePreview [] (0 + toFraction 30 stBeforePreview.duration * 400)
          0 400).videoTime = 30) :=
  ⟨by refine ⟨?_, ?_, ?_, ?_⟩ <;> norm_num [stBeforePreview],
    mapper_round_trip stBeforePreview [] 30 0 400
      (by norm_num [stBeforePreview]) (by norm_num)
      (by norm_num) (by norm_num [stBeforePreview])⟩

/-- Strict countP decrease: if q implies p pointwise and some member
satisfies p but not q, q counts strictly fewer elements than p. -/
theorem countP_lt_of_mem {α : Type} (l : List α) (p q : α → Bool)
    (hq : ∀ a, q a = true → p a = true) (x : α) (hx : x ∈ l)
    (hpx : p x = true) (hqx : q x = false) :
    l.countP q < l.countP p := by
  induction l with
  | nil => cases hx
  | cons a l ih =>
    rw [List.countP_cons, List.countP_cons]
    rcases List.mem_cons.mp hx with rfl | hx2
    · have hle : l.countP q ≤ l.countP p :=
        List.countP_mono_left (fun a _ h => hq a h)
      simp [hpx, hqx]
      omega
    · have hlt := ih hx2
      by_cases hqa : q a = true
      · simp [hqa, hq a hqa]
        omega
      · rw [Bool.not_eq_true] at hqa
        by_cases hpa : p a = true
        · simp [hqa, hpa]
          omega
        · rw [Bool.not_eq_true] at hpa
          simp [hqa, hpa]
          omega

/-- A successful skip search strictly decreases the number of accepted cuts
whose end still lies ahead of the position. -/
theorem liveCount_lt_of_find (cuts : List CutEvent) (t : ℚ) (c : CutEvent)
    (hc : findCurrentCut cuts t = some c) :
    liveCount cuts c.«end» < liveCount cuts t := by
  have hmem := List.mem_of_find?_eq_some hc
  have hpred := (skipPred_iff t c).mp (List.find?_some hc)
  refine countP_lt_of_mem cuts _ _ ?_ c hmem ?_ ?_
  · intro a ha
    rw [Bool.and_eq_true] at ha
    rw [Bool.and_eq_true]
    refine ⟨ha.1, ?_⟩
    have h2 := of_decide_eq_true ha.2
    exact decide_eq_true (lt_trans hpred.2.2 h2)
  · rw [Bool.and_eq_true]
    exact ⟨decide_eq_true hpred.1, decide_eq_true hpred.2.2⟩
  · simp

/-- Where no accepted cut contains the position, the skip step is the
identity. -/
theorem skipStep_fixed (cuts : List CutEvent) (t : ℚ)
    (h : findCurrentCut cuts t = none) : skipStep cuts t = t := by
  simp [skipStep, h]

/-- Iterating the skip step as many times as the termination measure allows
reaches a position with no containing accepted cut. -/
theorem skip_iterate_none (cuts : List CutEvent) :
    ∀ (n : Nat) (t : ℚ), liveCount cuts t ≤ n →
      findCurrentCut cuts ((skipStep cuts)^[n] t) = none := by
  intro n
  induction n with
  | zero =>
    intro t h0
    simp only [Function.iterate_zero, id]
    rcases hf : findCurrentCut cuts t with _ | c
    · rfl
    · exfalso
      have hmem := List.mem_of_find?_eq_some hf
      have hpred := (skipPred_iff t c).mp (List.find?_some hf)
      have hpos : 0 < liveCount cuts t := by
        rw [liveCount, List.countP_pos_iff]
        refine ⟨c, hmem, ?_⟩
        rw [Bool.and_eq_true]
        exact ⟨decide_eq_true hpred.1, decide_eq_true hpred.2.2⟩
      omega
  | succ n ih =>
    intro t h
    rw [Function.iterate_succ_apply]
    rcases hf : findCurrentCut cuts t with _ | c
    · rw [skipStep_fixed cuts t hf, Function.iterate_fixed (skipStep_fixed cuts t hf)]
      exact hf
    · apply ih
      have hlt := liveCount_lt_of_find cuts t c hf
      have hstep : skipStep cuts t = c.«end» := by simp [skipStep, hf]
      rw [hstep]
      omega

/-- C7: iterating the skip policy from any starting position reaches, after
at most as many jumps as there are accepted cuts, a position contained in
no accepted cut — no infinite jump loop, even with adjacent or overlapping
accepted cuts. -/
theorem skip_convergence (cuts : List CutEvent) (t : ℚ) :
    findCurrentCut cuts ((skipStep cuts)^[acceptedCount cuts] t) = none := by
  apply skip_iterate_none
  refine List.countP_mono_left (fun c _ h => ?_)
  rw [Bool.and_eq_true] at h
  exact h.1

/-- Witness for C10 at a concrete one-element list. -/
theorem toggleCutStatus_frame_witness :
    ([cutA][0]? = some cutA) ∧
    (toggleCutStatus [cutA] "a" CutStatus.rejected).length = [cutA].length ∧
    (toggleCutStatus [cutA] "a" CutStatus.rejected)[0]? =
      some { cutA with status := if cutA.id = "a" then CutStatus.rejected else cutA.status } :=
  ⟨by decide, toggleCutStatus_frame [cutA] "a" CutStatus.rejected 0 cutA (by decide)⟩

end ClarityCut
